import Mathlib

/-!
Verification of the image-set validation and page-layout planning engine of the
Rust-Image-PDF-Tool repository, as a shallow embedding in Lean 4.

The embedding mirrors the Rust source:
* `ImageDataList.new`      — src/domain/image_data_list.rs, `ImageDataList::new`
* `planLayout`             — the scale/rotation computation inlined in
                             `PdfFile::create_file` (src/domain/pdf_file/create_pdf.rs,
                             lines 115-126)
* `PdfFile.create_file`    — src/domain/pdf_file/create_pdf.rs, `PdfFile::create_file`
* `run`                    — src/workflow.rs, `run`

Modelling conventions:
* A raw binary blob is abstracted by the observable behaviour of the external
  `image`/`genpdf` crates on it (`Blob`): the result of the cheap
  header-dimension decode used by the validator (`ImageReader::into_dimensions`),
  the result of the full pixel-buffer decode used by the assembler
  (`image::load_from_memory`, yielding the decoded dimensions), and whether
  `genpdf::elements::Image::from_dynamic_image` accepts the decoded image.
  Decode errors are carried as strings (the `Display` rendering of the
  underlying error).
* Rust `f64` arithmetic in the layout planner is modelled by exact rational
  arithmetic (`ℚ`); all quantities involved (page sizes in mm, `25.4`,
  pixel counts, DPI 300) are exactly representable, and the claims under
  study concern the decision structure of the algorithm.
* `u32`/`usize` values are modelled as `Nat`; the only arithmetic performed on
  them by the code under study is comparison and max, which cannot overflow.
* The external PDF renderer (`genpdf`'s `Document::render`) is a parameter of
  `PdfFile.create_file`: it receives the document title and the ordered list of
  document elements and either produces a byte stream or fails with a message.
-/

namespace ImagePdf

/-- Generic Boolean success test for `Except`. -/
def isOkB {ε α : Type} : Except ε α → Bool
  | .ok _ => true
  | .error _ => false

instance exceptDecEq {ε α : Type} [DecidableEq ε] [DecidableEq α] :
    DecidableEq (Except ε α) := fun x y =>
  match x, y with
  | .ok a, .ok b =>
    if h : a = b then .isTrue (by rw [h])
    else .isFalse (by intro hc; injection hc; contradiction)
  | .ok _, .error _ => .isFalse (by intro hc; exact Except.noConfusion hc)
  | .error _, .ok _ => .isFalse (by intro hc; exact Except.noConfusion hc)
  | .error a, .error b =>
    if h : a = b then .isTrue (by rw [h])
    else .isFalse (by intro hc; injection hc; contradiction)

/-- A raw binary blob, abstracted by what the external image libraries observe
on it.  `dims` is the header-only dimension decode used by the validator
(`ImageDataList::get_dimensions`); `pixels` is the full decode used by the
assembler (`image::load_from_memory`), yielding the decoded image's pixel
dimensions; `toElement` records whether
`genpdf::elements::Image::from_dynamic_image` succeeds on the decoded image. -/
structure Blob where
  dims : Except String (Nat × Nat)
  pixels : Except String (Nat × Nat)
  toElement : Except String Unit
deriving Repr, DecidableEq

/-- Whether the validator's dimension decode succeeds on this blob. -/
def Blob.decodes (b : Blob) : Bool := isOkB b.dims

/-- Decoded width as seen by the validator (0 when the blob does not decode;
only used under hypotheses that make every blob decodable). -/
def Blob.width (b : Blob) : Nat :=
  match b.dims with
  | .ok (w, _) => w
  | .error _ => 0

/-- Decoded height as seen by the validator (0 when the blob does not decode). -/
def Blob.height (b : Blob) : Nat :=
  match b.dims with
  | .ok (_, h) => h
  | .error _ => 0

/-- `ImageValidationError` from src/domain/image_data_list.rs.  `EmptyData` is
the error the spec's taxonomy names "EmptyCollection"; `NotAnImage` carries the
0-based index of the offending element and the underlying decode error. -/
inductive ImageValidationError where
  | EmptyData : ImageValidationError
  | NotAnImage (index : Nat) (source : String) : ImageValidationError
deriving Repr, DecidableEq

/-- The validated image container `ImageDataList` from
src/domain/image_data_list.rs. -/
structure ImageDataList where
  images : List Blob
  data_name : String
  max_height : Nat
  max_width : Nat
deriving Repr, DecidableEq

/-- The validation loop of `ImageDataList::new` (src/domain/image_data_list.rs,
lines 93-105): iterate over the blobs with their indices, abort with
`NotAnImage` at the first blob whose dimension decode fails, and accumulate the
running maximum width and height (`if w > max_width { max_width = w }`). -/
def validateDims : List Blob → Nat → Nat → Nat →
    Except ImageValidationError (Nat × Nat)
  | [], _, mw, mh => .ok (mw, mh)
  | b :: rest, i, mw, mh =>
    match b.dims with
    | .error e => .error (.NotAnImage i e)
    | .ok (w, h) =>
      validateDims rest (i + 1) (if w > mw then w else mw) (if h > mh then h else mh)

/-- `ImageDataList::new` (src/domain/image_data_list.rs, lines 81-113):
reject the empty list with `EmptyData`, otherwise validate every blob in order
and store the input blobs unchanged together with the aggregate maxima. -/
def ImageDataList.new (data : List Blob) (data_name : String) :
    Except ImageValidationError ImageDataList :=
  if data.isEmpty then .error .EmptyData
  else
    match validateDims data 0 0 0 with
    | .error e => .error e
    | .ok (mw, mh) =>
      .ok { images := data, data_name := data_name, max_height := mh, max_width := mw }

/-- `ImageDataList::len`. -/
def ImageDataList.len (l : ImageDataList) : Nat := l.images.length

/-- `ImageDataList::is_empty`. -/
def ImageDataList.is_empty (l : ImageDataList) : Bool := l.images.isEmpty

/-- `px_to_mm` (src/domain/pdf_file/create_pdf.rs, lines 23-25):
`(px as f64) / dpi * 25.4`. -/
def px_to_mm (px : Nat) (dpi : ℚ) : ℚ := (px : ℚ) / dpi * 25.4

/-- A4 page width in mm (`page_w_mm` in `PdfFile::create_file`). -/
def page_w_mm : ℚ := 210

/-- A4 page height in mm (`page_h_mm` in `PdfFile::create_file`). -/
def page_h_mm : ℚ := 297

/-- Margin in mm (`margin_mm` in `PdfFile::create_file`). -/
def margin_mm : ℚ := 10

/-- Usable page width: `page_w_mm - 2.0 * margin_mm` (= 190). -/
def usable_w : ℚ := page_w_mm - 2 * margin_mm

/-- Usable page height: `page_h_mm - 2.0 * margin_mm` (= 277). -/
def usable_h : ℚ := page_h_mm - 2 * margin_mm

/-- Default DPI assumed by `PdfFile::create_file`. -/
def dpi : ℚ := 300

/-- The per-image placement decision (scale factor and optional clockwise
rotation in degrees, `Some(90.0)` in the source when rotated). -/
structure PageLayoutDecision where
  scale : ℚ
  rotate_deg : Option ℚ
deriving Repr, DecidableEq

/-- The page-layout planner inlined in `PdfFile::create_file`
(src/domain/pdf_file/create_pdf.rs, lines 115-126):
convert the pixel dimensions to mm, compute the unrotated fit scale `s0` and the
90°-rotated fit scale `s90`, pick rotation exactly when `s90 > s0`, and cap the
selected scale at 1.0 afterwards. -/
def planLayout (uw uh d : ℚ) (w_px h_px : Nat) : PageLayoutDecision :=
  let w_mm := px_to_mm w_px d
  let h_mm := px_to_mm h_px d
  let s0 := min (uw / w_mm) (uh / h_mm)
  let s90 := min (uw / h_mm) (uh / w_mm)
  if s90 > s0 then { scale := min s90 1, rotate_deg := some 90 }
  else { scale := min s0 1, rotate_deg := none }

/-- `PdfValidationError` (src/domain/pdf_file/create_pdf.rs, lines 29-37).
The source has exactly two variants: `PdfCreationError(String)` for every
failure while building or rendering the document, and `PdfSaveError(String)`
for failures while writing the finished bytes to disk. -/
inductive PdfValidationError where
  | PdfCreationError (msg : String) : PdfValidationError
  | PdfSaveError (msg : String) : PdfValidationError
deriving Repr, DecidableEq

/-- An element pushed onto the `genpdf` document by `PdfFile::create_file`:
either a centered image with its scale and optional clockwise rotation, or a
page break. -/
inductive PdfElement where
  | image (scale : ℚ) (rotate_deg : Option ℚ) : PdfElement
  | pageBreak : PdfElement
deriving Repr, DecidableEq

/-- Whether a document element is an image page (as opposed to a page
break). -/
def PdfElement.isImage : PdfElement → Bool
  | .image _ _ => true
  | .pageBreak => false

/-- The message built at create_pdf.rs lines 108-112 when
`image::load_from_memory` fails on image `idx` (0-based; the message shows the
1-based number). -/
def loadErrMsg (idx : Nat) (e : String) : String :=
  "画像 No." ++ toString (idx + 1) ++ " の読み込みに失敗しました: " ++ e

/-- The message built at create_pdf.rs lines 131-137 when
`elements::Image::from_dynamic_image` fails on image `idx`. -/
def convErrMsg (idx : Nat) (e : String) : String :=
  "画像 No." ++ toString (idx + 1) ++ " のPDF要素への変換に失敗しました: " ++ e

/-- One iteration of the loop body of `PdfFile::create_file` (lines 102-153):
fully decode blob `idx`, plan its layout from the decoded pixel dimensions, and
convert it to a centered document element.  Both failure paths wrap their
message in `PdfCreationError`. -/
def pageElement (idx : Nat) (b : Blob) : Except PdfValidationError PdfElement :=
  match b.pixels with
  | .error e => .error (.PdfCreationError (loadErrMsg idx e))
  | .ok (w_px, h_px) =>
    let dec := planLayout usable_w usable_h dpi w_px h_px
    match b.toElement with
    | .error e => .error (.PdfCreationError (convErrMsg idx e))
    | .ok _ => .ok (.image dec.scale dec.rotate_deg)

/-- The document-building loop of `PdfFile::create_file` (lines 102-161), with
`n` the total number of images: push the element for each image and, whenever
`idx + 1 < n`, a page break after it. -/
def buildElements (n : Nat) : List Blob → Nat → Except PdfValidationError (List PdfElement)
  | [], _ => .ok []
  | b :: rest, idx =>
    match pageElement idx b with
    | .error e => .error e
    | .ok el =>
      match buildElements n rest (idx + 1) with
      | .error e => .error e
      | .ok els =>
        .ok (el :: (if idx + 1 < n then PdfElement.pageBreak :: els else els))

/-- The document element a fully renderable blob contributes, for stating the
shape of the assembled document (meaningful only when `b.pixels` succeeds). -/
def Blob.pageOf (b : Blob) : PdfElement :=
  match b.pixels with
  | .ok (w_px, h_px) =>
    let dec := planLayout usable_w usable_h dpi w_px h_px
    .image dec.scale dec.rotate_deg
  | .error _ => .image 0 none

/-- The opaque font resource (`PdfFont`, src/domain/pdf_file/pdf_font.rs). -/
structure PdfFont where
  family : String
deriving Repr, DecidableEq

/-- `PdfFile` (src/domain/pdf_file/create_pdf.rs, lines 42-55); the rendered
byte stream is modelled as a list of bytes (`Nat`). -/
structure PdfFile where
  file_name : String
  image_data_list : ImageDataList
  font : PdfFont
  pdf_data : List Nat
deriving Repr, DecidableEq

/-- `PdfFile::create_file` (src/domain/pdf_file/create_pdf.rs, lines 68-176).
The external `genpdf` renderer is the parameter `render`: it receives the
document title (set from the collection's `data_name`) and the ordered element
list and returns the byte stream or an error message, which `create_file`
wraps in `PdfCreationError` (line 167). -/
def PdfFile.create_file
    (render : String → List PdfElement → Except String (List Nat))
    (image_data_list : ImageDataList) (pdf_font : PdfFont) :
    Except PdfValidationError PdfFile :=
  match buildElements image_data_list.images.length image_data_list.images 0 with
  | .error e => .error e
  | .ok els =>
    match render image_data_list.data_name els with
    | .error e => .error (.PdfCreationError e)
    | .ok pdf_bytes =>
      .ok { file_name := image_data_list.data_name,
            image_data_list := image_data_list,
            font := pdf_font,
            pdf_data := pdf_bytes }

/-- `AppError` (src/error.rs), restricted to what the workflow run loop
distinguishes: the terminal `NoItemsProcessed` error versus any per-source
error (I/O, path, validation or PDF errors), collapsed into `SourceError`. -/
inductive AppError where
  | NoItemsProcessed (path : String) : AppError
  | SourceError (msg : String) : AppError
deriving Repr, DecidableEq

/-- The `processed_item_count` accumulation of `run` (src/workflow.rs, lines
49-87): each recognised source is processed; a success increments the counter
and a failure is reported and skipped. -/
def countProcessed {α : Type} (process : α → Except AppError Unit) :
    List α → Nat
  | [] => 0
  | s :: rest =>
    match process s with
    | .ok _ => countProcessed process rest + 1
    | .error _ => countProcessed process rest

/-- `run` (src/workflow.rs, lines 27-99), abstracted over the recognised
sources (directories and zip archives found in the input directory) and the
per-source processing function (`process_directory` / `process_zip_file`):
every source is processed independently, and the run fails with
`NoItemsProcessed` exactly when no source was processed successfully. -/
def run {α : Type} (input_dir : String) (sources : List α)
    (process : α → Except AppError Unit) : Except AppError Unit :=
  if countProcessed process sources = 0 then
    .error (.NoItemsProcessed input_dir)
  else .ok ()

/-! ## Helper lemmas -/

theorem condMax_left_le (w mw : Nat) : mw ≤ if w > mw then w else mw := by
  split <;> omega

theorem condMax_right_le (w mw : Nat) : w ≤ if w > mw then w else mw := by
  split <;> omega

/-- The validation loop, run with all blobs decodable, succeeds and returns
running maxima that bound every decoded dimension and are either the seed or
attained by some blob. -/
theorem validateDims_ok_bounds (data : List Blob) :
    ∀ (i mw mh : Nat), (∀ b ∈ data, b.decodes = true) →
      ∃ MW MH, validateDims data i mw mh = .ok (MW, MH) ∧
        (MW = mw ∨ ∃ b ∈ data, MW = b.width) ∧ mw ≤ MW ∧
        (∀ b ∈ data, b.width ≤ MW) ∧
        (MH = mh ∨ ∃ b ∈ data, MH = b.height) ∧ mh ≤ MH ∧
        (∀ b ∈ data, b.height ≤ MH) := by
  induction data with
  | nil =>
    intro i mw mh _
    exact ⟨mw, mh, rfl, Or.inl rfl, Nat.le_refl _, by simp, Or.inl rfl, Nat.le_refl _, by simp⟩
  | cons b rest ih =>
    intro i mw mh hall
    have hb : b.decodes = true := hall b (List.mem_cons_self b rest)
    unfold Blob.decodes isOkB at hb
    cases hd : b.dims with
    | error e => rw [hd] at hb; simp at hb
    | ok p =>
      obtain ⟨w, h⟩ := p
      have hw : b.width = w := by unfold Blob.width; rw [hd]
      have hh : b.height = h := by unfold Blob.height; rw [hd]
      obtain ⟨MW, MH, heq, hmemw, hlew, hubw, hmemh, hleh, hubh⟩ :=
        ih (i + 1) (if w > mw then w else mw) (if h > mh then h else mh)
          (fun b' hb' => hall b' (List.mem_cons_of_mem b hb'))
      refine ⟨MW, MH, ?_, ?_, ?_, ?_, ?_, ?_, ?_⟩
      · simp only [validateDims, hd]; exact heq
      · rcases hmemw with hmw | ⟨b', hb', hb'w⟩
        · by_cases hwgt : w > mw
          · exact Or.inr ⟨b, List.mem_cons_self b rest, by rw [hmw, if_pos hwgt, hw]⟩
          · exact Or.inl (by rw [hmw, if_neg hwgt])
        · exact Or.inr ⟨b', List.mem_cons_of_mem b hb', hb'w⟩
      · exact Nat.le_trans (condMax_left_le w mw) hlew
      · intro b' hb'
        rcases List.mem_cons.mp hb' with hbb | hbr
        · rw [hbb, hw]; exact Nat.le_trans (condMax_right_le w mw) hlew
        · exact hubw b' hbr
      · rcases hmemh with hmh | ⟨b', hb', hb'h⟩
        · by_cases hhgt : h > mh
          · exact Or.inr ⟨b, List.mem_cons_self b rest, by rw [hmh, if_pos hhgt, hh]⟩
          · exact Or.inl (by rw [hmh, if_neg hhgt])
        · exact Or.inr ⟨b', List.mem_cons_of_mem b hb', hb'h⟩
      · exact Nat.le_trans (condMax_left_le h mh) hleh
      · intro b' hb'
        rcases List.mem_cons.mp hb' with hbb | hbr
        · rw [hbb, hh]; exact Nat.le_trans (condMax_right_le h mh) hleh
        · exact hubh b' hbr

/-- The validation loop aborts at the first non-decodable blob, reporting the
start index plus its position. -/
theorem validateDims_first_bad (data : List Blob) :
    ∀ (k : Nat) (hk : k < data.length) (i mw mh : Nat),
      (∀ j (hj : j < k), (data.get ⟨j, hj.trans hk⟩).decodes = true) →
      (data.get ⟨k, hk⟩).decodes = false →
      ∃ e, validateDims data i mw mh = .error (.NotAnImage (i + k) e) := by
  induction data with
  | nil => intro k hk; exact absurd hk (Nat.not_lt_zero k)
  | cons b rest ih =>
    intro k hk i mw mh hbefore hbad
    cases k with
    | zero =>
      have hb : b.decodes = false := hbad
      unfold Blob.decodes isOkB at hb
      cases hd : b.dims with
      | ok p => rw [hd] at hb; simp at hb
      | error e =>
        refine ⟨e, ?_⟩
        simp only [validateDims, hd, Nat.add_zero]
    | succ k' =>
      have hb : b.decodes = true := hbefore 0 (Nat.succ_pos k')
      unfold Blob.decodes isOkB at hb
      cases hd : b.dims with
      | error e => rw [hd] at hb; simp at hb
      | ok p =>
        obtain ⟨w, h⟩ := p
        have hk' : k' < rest.length := Nat.lt_of_succ_lt_succ hk
        have hbefore' : ∀ j (hj : j < k'),
            (rest.get ⟨j, hj.trans hk'⟩).decodes = true :=
          fun j hj => hbefore (j + 1) (Nat.succ_lt_succ hj)
        have hbad' : (rest.get ⟨k', hk'⟩).decodes = false := hbad
        obtain ⟨e, he⟩ := ih k' hk' (i + 1)
          (if w > mw then w else mw) (if h > mh then h else mh) hbefore' hbad'
        refine ⟨e, ?_⟩
        simp only [validateDims, hd]
        rw [show i + (k' + 1) = (i + 1) + k' by omega]
        exact he

/-! ## Claim theorems -/

/-- C1: for every image with positive pixel width and height, the planner —
which converts pixels to millimeters as `pixels / dpi * 25.4` with `dpi = 300`
and compares `scale_unrotated = min (190 / w_mm) (277 / h_mm)` against
`scale_rotated = min (190 / h_mm) (277 / w_mm)` over the 190mm × 277mm usable
area — selects clockwise-90° rotation exactly when `scale_rotated` is strictly
greater, and on a tie selects no rotation. -/
theorem planLayout_rotation_iff_strict (w_px h_px : Nat)
    (hw : 0 < w_px) (hh : 0 < h_px) :
    ((planLayout usable_w usable_h dpi w_px h_px).rotate_deg = some 90 ↔
      min ((190 : ℚ) / ((w_px : ℚ) / 300 * 25.4)) ((277 : ℚ) / ((h_px : ℚ) / 300 * 25.4)) <
        min ((190 : ℚ) / ((h_px : ℚ) / 300 * 25.4)) ((277 : ℚ) / ((w_px : ℚ) / 300 * 25.4))) ∧
    (min ((190 : ℚ) / ((w_px : ℚ) / 300 * 25.4)) ((277 : ℚ) / ((h_px : ℚ) / 300 * 25.4)) =
        min ((190 : ℚ) / ((h_px : ℚ) / 300 * 25.4)) ((277 : ℚ) / ((w_px : ℚ) / 300 * 25.4)) →
      (planLayout usable_w usable_h dpi w_px h_px).rotate_deg = none) := by
  have huw : usable_w = 190 := by norm_num [usable_w, page_w_mm, margin_mm]
  have huh : usable_h = 277 := by norm_num [usable_h, page_h_mm, margin_mm]
  have hd : dpi = 300 := rfl
  simp only [planLayout, px_to_mm, huw, huh, hd]
  split
  case isTrue hlt =>
    exact ⟨⟨fun _ => hlt, fun _ => rfl⟩,
      fun heq => absurd hlt (by rw [heq]; exact lt_irrefl _)⟩
  case isFalse hnlt =>
    exact ⟨⟨fun hc => absurd hc (by simp), fun hc => absurd hc hnlt⟩, fun _ => rfl⟩

/-- Witness for C1, at the concrete 100 × 50 px image. -/
theorem planLayout_rotation_iff_strict_witness :
    ((planLayout usable_w usable_h dpi 100 50).rotate_deg = some 90 ↔
      min ((190 : ℚ) / (((100 : ℕ) : ℚ) / 300 * 25.4)) ((277 : ℚ) / (((50 : ℕ) : ℚ) / 300 * 25.4)) <
        min ((190 : ℚ) / (((50 : ℕ) : ℚ) / 300 * 25.4)) ((277 : ℚ) / (((100 : ℕ) : ℚ) / 300 * 25.4))) ∧
    (min ((190 : ℚ) / (((100 : ℕ) : ℚ) / 300 * 25.4)) ((277 : ℚ) / (((50 : ℕ) : ℚ) / 300 * 25.4)) =
        min ((190 : ℚ) / (((50 : ℕ) : ℚ) / 300 * 25.4)) ((277 : ℚ) / (((100 : ℕ) : ℚ) / 300 * 25.4)) →
      (planLayout usable_w usable_h dpi 100 50).rotate_deg = none) :=
  planLayout_rotation_iff_strict 100 50 (by decide) (by decide)

/-- C2: the cap at 1.0 is applied only after the orientation is selected on the
uncapped scales; the effective scale is strictly positive and at most 1, equals
`min (selected uncapped scale) 1`, and in particular when the unrotated
uncapped scale strictly exceeds both 1 and the rotated uncapped scale the
decision is (no rotation, scale 1). -/
theorem planLayout_cap_after_selection (w_px h_px : Nat)
    (hw : 0 < w_px) (hh : 0 < h_px) :
    0 < (planLayout usable_w usable_h dpi w_px h_px).scale ∧
    (planLayout usable_w usable_h dpi w_px h_px).scale ≤ 1 ∧
    (planLayout usable_w usable_h dpi w_px h_px).scale =
      min (if min ((190 : ℚ) / ((w_px : ℚ) / 300 * 25.4)) ((277 : ℚ) / ((h_px : ℚ) / 300 * 25.4)) <
              min ((190 : ℚ) / ((h_px : ℚ) / 300 * 25.4)) ((277 : ℚ) / ((w_px : ℚ) / 300 * 25.4))
           then min ((190 : ℚ) / ((h_px : ℚ) / 300 * 25.4)) ((277 : ℚ) / ((w_px : ℚ) / 300 * 25.4))
           else min ((190 : ℚ) / ((w_px : ℚ) / 300 * 25.4)) ((277 : ℚ) / ((h_px : ℚ) / 300 * 25.4))) 1 ∧
    (min ((190 : ℚ) / ((h_px : ℚ) / 300 * 25.4)) ((277 : ℚ) / ((w_px : ℚ) / 300 * 25.4)) <
        min ((190 : ℚ) / ((w_px : ℚ) / 300 * 25.4)) ((277 : ℚ) / ((h_px : ℚ) / 300 * 25.4)) →
      1 < min ((190 : ℚ) / ((w_px : ℚ) / 300 * 25.4)) ((277 : ℚ) / ((h_px : ℚ) / 300 * 25.4)) →
      planLayout usable_w usable_h dpi w_px h_px = ⟨1, none⟩) := by
  have huw : usable_w = 190 := by norm_num [usable_w, page_w_mm, margin_mm]
  have huh : usable_h = 277 := by norm_num [usable_h, page_h_mm, margin_mm]
  have hd : dpi = 300 := rfl
  have hwq : (0 : ℚ) < (w_px : ℚ) := by exact_mod_cast hw
  have hhq : (0 : ℚ) < (h_px : ℚ) := by exact_mod_cast hh
  have hwm : (0 : ℚ) < (w_px : ℚ) / 300 * 25.4 :=
    mul_pos (div_pos hwq (by norm_num)) (by norm_num)
  have hhm : (0 : ℚ) < (h_px : ℚ) / 300 * 25.4 :=
    mul_pos (div_pos hhq (by norm_num)) (by norm_num)
  have hs0 : (0 : ℚ) <
      min ((190 : ℚ) / ((w_px : ℚ) / 300 * 25.4)) ((277 : ℚ) / ((h_px : ℚ) / 300 * 25.4)) :=
    lt_min (div_pos (by norm_num) hwm) (div_pos (by norm_num) hhm)
  have hs90 : (0 : ℚ) <
      min ((190 : ℚ) / ((h_px : ℚ) / 300 * 25.4)) ((277 : ℚ) / ((w_px : ℚ) / 300 * 25.4)) :=
    lt_min (div_pos (by norm_num) hhm) (div_pos (by norm_num) hwm)
  simp only [planLayout, px_to_mm, huw, huh, hd]
  split
  case isTrue hlt =>
    refine ⟨lt_min hs90 one_pos, min_le_right _ _, ?_, ?_⟩
    · rfl
    · intro hlt' _
      exact absurd hlt (not_lt.mpr (le_of_lt hlt'))
  case isFalse hnlt =>
    refine ⟨lt_min hs0 one_pos, min_le_right _ _, ?_, ?_⟩
    · rfl
    · intro _ hgt1
      have : min ((190 : ℚ) / ((w_px : ℚ) / 300 * 25.4))
          ((277 : ℚ) / ((h_px : ℚ) / 300 * 25.4)) ⊓ 1 = 1 :=
        min_eq_right (le_of_lt hgt1)
      rw [PageLayoutDecision.mk.injEq]
      exact ⟨this, rfl⟩

/-- Witness for C2, at the concrete 2200 × 3000 px image (whose unrotated
uncapped scale exceeds 1 while the rotated one is below 1). -/
theorem planLayout_cap_after_selection_witness :
    0 < (planLayout usable_w usable_h dpi 2200 3000).scale ∧
    (planLayout usable_w usable_h dpi 2200 3000).scale ≤ 1 ∧
    (planLayout usable_w usable_h dpi 2200 3000).scale =
      min (if min ((190 : ℚ) / (((2200 : ℕ) : ℚ) / 300 * 25.4)) ((277 : ℚ) / (((3000 : ℕ) : ℚ) / 300 * 25.4)) <
              min ((190 : ℚ) / (((3000 : ℕ) : ℚ) / 300 * 25.4)) ((277 : ℚ) / (((2200 : ℕ) : ℚ) / 300 * 25.4))
           then min ((190 : ℚ) / (((3000 : ℕ) : ℚ) / 300 * 25.4)) ((277 : ℚ) / (((2200 : ℕ) : ℚ) / 300 * 25.4))
           else min ((190 : ℚ) / (((2200 : ℕ) : ℚ) / 300 * 25.4)) ((277 : ℚ) / (((3000 : ℕ) : ℚ) / 300 * 25.4))) 1 ∧
    (min ((190 : ℚ) / (((3000 : ℕ) : ℚ) / 300 * 25.4)) ((277 : ℚ) / (((2200 : ℕ) : ℚ) / 300 * 25.4)) <
        min ((190 : ℚ) / (((2200 : ℕ) : ℚ) / 300 * 25.4)) ((277 : ℚ) / (((3000 : ℕ) : ℚ) / 300 * 25.4)) →
      1 < min ((190 : ℚ) / (((2200 : ℕ) : ℚ) / 300 * 25.4)) ((277 : ℚ) / (((3000 : ℕ) : ℚ) / 300 * 25.4)) →
      planLayout usable_w usable_h dpi 2200 3000 = ⟨1, none⟩) :=
  planLayout_cap_after_selection 2200 3000 (by decide) (by decide)

/-- C3: if all blobs before 0-based position `k` decode as images and the blob
at position `k` does not, `ImageDataList::new` fails with `NotAnImage` carrying
exactly the index `k` of the original input list — so no collection, not even a
partial one, is produced. -/
theorem new_first_bad_reports_original_index (data : List Blob) (name : String)
    (k : Nat) (hk : k < data.length)
    (hbefore : ∀ j (hj : j < k), (data.get ⟨j, hj.trans hk⟩).decodes = true)
    (hbad : (data.get ⟨k, hk⟩).decodes = false) :
    ∃ e, ImageDataList.new data name = .error (.NotAnImage k e) := by
  obtain ⟨e, he⟩ := validateDims_first_bad data k hk 0 0 0 hbefore hbad
  rw [Nat.zero_add] at he
  have hne : data.isEmpty = false := by
    cases data with
    | nil => exact absurd hk (Nat.not_lt_zero k)
    | cons b rest => rfl
  refine ⟨e, ?_⟩
  simp only [ImageDataList.new, hne, Bool.false_eq_true, if_false, he]

/-- Witness for C3: a concrete three-element list whose middle element does not
decode is rejected with `NotAnImage` at index 1. -/
theorem new_first_bad_reports_original_index_witness :
    ∃ e, ImageDataList.new
        [⟨.ok (10, 20), .ok (10, 20), .ok ()⟩,
         ⟨.error "not an image", .error "not an image", .error "no"⟩,
         ⟨.ok (30, 40), .ok (30, 40), .ok ()⟩] "mixed" =
      .error (.NotAnImage 1 e) :=
  new_first_bad_reports_original_index
    [⟨.ok (10, 20), .ok (10, 20), .ok ()⟩,
     ⟨.error "not an image", .error "not an image", .error "no"⟩,
     ⟨.ok (30, 40), .ok (30, 40), .ok ()⟩] "mixed" 1 (by decide)
    (fun j hj => by
      interval_cases j
      · rfl)
    (by rfl)

/-- C4: for every non-empty list of decodable blobs and every name, validation
succeeds; the stored record sequence is exactly the input in its original order
(hence equal length), the stored name is the given name, and the aggregate
`max_width`/`max_height` are the true maxima of the decoded widths and heights:
attained by some record and an upper bound of all of them. -/
theorem new_all_ok_spec (data : List Blob) (name : String)
    (hne : data ≠ []) (hall : ∀ b ∈ data, b.decodes = true) :
    ∃ lst, ImageDataList.new data name = .ok lst ∧
      lst.images = data ∧ lst.data_name = name ∧ lst.len = data.length ∧
      (∃ b ∈ data, lst.max_width = b.width) ∧ (∀ b ∈ data, b.width ≤ lst.max_width) ∧
      (∃ b ∈ data, lst.max_height = b.height) ∧ (∀ b ∈ data, b.height ≤ lst.max_height) := by
  obtain ⟨MW, MH, heq, hmemw, _, hubw, hmemh, _, hubh⟩ :=
    validateDims_ok_bounds data 0 0 0 hall
  have hie : data.isEmpty = false := by
    cases data with
    | nil => exact absurd rfl hne
    | cons b rest => rfl
  refine ⟨{ images := data, data_name := name, max_height := MH, max_width := MW }, ?_,
    rfl, rfl, rfl, ?_, hubw, ?_, hubh⟩
  · simp only [ImageDataList.new, hie, Bool.false_eq_true, if_false, heq]
  · rcases hmemw with hw0 | hmem
    · cases data with
      | nil => exact absurd rfl hne
      | cons b rest =>
        refine ⟨b, List.mem_cons_self b rest, ?_⟩
        have := hubw b (List.mem_cons_self b rest)
        show MW = b.width
        omega
    · exact hmem
  · rcases hmemh with hh0 | hmem
    · cases data with
      | nil => exact absurd rfl hne
      | cons b rest =>
        refine ⟨b, List.mem_cons_self b rest, ?_⟩
        have := hubh b (List.mem_cons_self b rest)
        show MH = b.height
        omega
    · exact hmem

/-- Witness for C4: two concrete decodable blobs of different sizes validate to
a collection with the input order preserved and maxima 80 × 200. -/
theorem new_all_ok_spec_witness :
    ∃ lst, ImageDataList.new
        [⟨.ok (80, 50), .ok (80, 50), .ok ()⟩,
         ⟨.ok (30, 200), .ok (30, 200), .ok ()⟩] "varied" = .ok lst ∧
      lst.images =
        [⟨.ok (80, 50), .ok (80, 50), .ok ()⟩,
         ⟨.ok (30, 200), .ok (30, 200), .ok ()⟩] ∧
      lst.data_name = "varied" ∧
      lst.len = 2 ∧
      (∃ b ∈ [(⟨.ok (80, 50), .ok (80, 50), .ok ()⟩ : Blob),
              ⟨.ok (30, 200), .ok (30, 200), .ok ()⟩], lst.max_width = b.width) ∧
      (∀ b ∈ [(⟨.ok (80, 50), .ok (80, 50), .ok ()⟩ : Blob),
              ⟨.ok (30, 200), .ok (30, 200), .ok ()⟩], b.width ≤ lst.max_width) ∧
      (∃ b ∈ [(⟨.ok (80, 50), .ok (80, 50), .ok ()⟩ : Blob),
              ⟨.ok (30, 200), .ok (30, 200), .ok ()⟩], lst.max_height = b.height) ∧
      (∀ b ∈ [(⟨.ok (80, 50), .ok (80, 50), .ok ()⟩ : Blob),
              ⟨.ok (30, 200), .ok (30, 200), .ok ()⟩], b.height ≤ lst.max_height) :=
  new_all_ok_spec
    [⟨.ok (80, 50), .ok (80, 50), .ok ()⟩, ⟨.ok (30, 200), .ok (30, 200), .ok ()⟩]
    "varied" (by decide) (by decide)

/-- C5: the empty input list is always rejected with the `EmptyData` error (the
spec's "EmptyCollection"), regardless of the name; no blob exists to be
decoded. -/
theorem new_empty_always_emptyData (name : String) :
    ImageDataList.new [] name = .error .EmptyData := rfl

/-- C9: the validator and the layout planner are pure functions of their
arguments — the embedding carries no state, randomness or clock, mirroring the
Rust source, which reads no globals — so re-running either on identical inputs
yields identical results. -/
theorem validation_and_layout_deterministic (data : List Blob) (name : String)
    (uw uh d : ℚ) (w_px h_px : Nat) :
    ImageDataList.new data name = ImageDataList.new data name ∧
    planLayout uw uh d w_px h_px = planLayout uw uh d w_px h_px :=
  ⟨rfl, rfl⟩

/-- C10: every `ImageDataList` the constructor can produce is non-empty:
`is_empty` is `false` and `len ≥ 1` for its whole (immutable) lifetime. -/
theorem new_ok_nonempty_invariant (data : List Blob) (name : String)
    (lst : ImageDataList) (h : ImageDataList.new data name = .ok lst) :
    lst.is_empty = false ∧ 1 ≤ lst.len := by
  unfold ImageDataList.new at h
  cases data with
  | nil => simp at h
  | cons b rest =>
    simp only [List.isEmpty_cons, Bool.false_eq_true, if_false] at h
    cases hv : validateDims (b :: rest) 0 0 0 with
    | error e => rw [hv] at h; simp at h
    | ok p =>
      obtain ⟨mw, mh⟩ := p
      rw [hv] at h
      simp only [Except.ok.injEq] at h
      subst h
      exact ⟨rfl, by simp [ImageDataList.len]⟩

/-- Witness for C10: a concrete singleton collection is accepted and is
non-empty. -/
theorem new_ok_nonempty_invariant_witness :
    (⟨[⟨.ok (2, 3), .ok (2, 3), .ok ()⟩], "one", 3, 2⟩ : ImageDataList).is_empty = false ∧
      1 ≤ (⟨[⟨.ok (2, 3), .ok (2, 3), .ok ()⟩], "one", 3, 2⟩ : ImageDataList).len :=
  new_ok_nonempty_invariant [⟨.ok (2, 3), .ok (2, 3), .ok ()⟩] "one"
    ⟨[⟨.ok (2, 3), .ok (2, 3), .ok ()⟩], "one", 3, 2⟩ (by rfl)


theorem isImage_pageBreak : PdfElement.pageBreak.isImage = false := rfl

theorem pageOf_isImage (b : Blob) : b.pageOf.isImage = true := by
  unfold Blob.pageOf
  cases hp : b.pixels <;> rfl

theorem pageElement_ok (idx : Nat) (b : Blob)
    (hp : isOkB b.pixels = true) (ht : isOkB b.toElement = true) :
    pageElement idx b = .ok b.pageOf := by
  cases hd : b.pixels with
  | error e => rw [hd] at hp; exact absurd hp (by simp [isOkB])
  | ok p =>
    obtain ⟨w, h⟩ := p
    cases hte : b.toElement with
    | error e => rw [hte] at ht; exact absurd ht (by simp [isOkB])
    | ok u => simp only [pageElement, Blob.pageOf, hd, hte]

theorem buildElements_all_ok (n : Nat) (l : List Blob) :
    ∀ (idx : Nat), idx + l.length = n →
      (∀ b ∈ l, isOkB b.pixels = true ∧ isOkB b.toElement = true) →
      buildElements n l idx =
        .ok (List.intersperse PdfElement.pageBreak (l.map Blob.pageOf)) := by
  induction l with
  | nil => intro idx _ _; rfl
  | cons b rest ih =>
    intro idx hn hall
    have hb := hall b (List.mem_cons_self b rest)
    have hpe : pageElement idx b = .ok b.pageOf := pageElement_ok idx b hb.1 hb.2
    show (match pageElement idx b with
      | Except.error e => Except.error e
      | Except.ok el =>
        match buildElements n rest (idx + 1) with
        | Except.error e => Except.error e
        | Except.ok els =>
          Except.ok (el :: (if idx + 1 < n then PdfElement.pageBreak :: els else els))) =
      Except.ok (List.intersperse PdfElement.pageBreak ((b :: rest).map Blob.pageOf))
    rw [hpe, ih (idx + 1) (by simp at hn ⊢; omega)
      (fun b' hb' => hall b' (List.mem_cons_of_mem b hb'))]
    cases rest with
    | nil =>
      have hlt : ¬ (idx + 1 < n) := by simp at hn; omega
      simp only [List.map_cons, List.map_nil, List.intersperse_singleton, if_neg hlt]
      rfl
    | cons r rs =>
      have hlt : idx + 1 < n := by simp [List.length_cons] at hn; omega
      simp only [List.map_cons, List.intersperse_cons_cons, if_pos hlt]

theorem countP_intersperse_images (l : List PdfElement)
    (hall : ∀ x ∈ l, x.isImage = true) :
    List.countP (fun e => e.isImage) (List.intersperse PdfElement.pageBreak l) =
      l.length := by
  induction l with
  | nil => rfl
  | cons a t ih =>
    cases t with
    | nil =>
      rw [List.intersperse_singleton]
      simp [List.countP_cons, hall a (by simp)]
    | cons c t' =>
      have ha := hall a (List.mem_cons_self _ _)
      rw [List.intersperse_cons_cons, List.countP_cons, List.countP_cons,
        ih (fun x hx => hall x (List.mem_cons_of_mem a hx))]
      simp [ha, isImage_pageBreak, List.length_cons]

theorem countP_intersperse_breaks (l : List PdfElement)
    (hall : ∀ x ∈ l, x.isImage = true) :
    List.countP (fun e => decide (e = PdfElement.pageBreak))
        (List.intersperse PdfElement.pageBreak l) = l.length - 1 := by
  induction l with
  | nil => rfl
  | cons a t ih =>
    cases t with
    | nil =>
      have ha := hall a (by simp)
      have hane : a ≠ PdfElement.pageBreak := by
        intro hc; rw [hc] at ha; exact absurd ha (by simp [isImage_pageBreak])
      rw [List.intersperse_singleton]
      simp [List.countP_cons, hane]
    | cons c t' =>
      have ha := hall a (List.mem_cons_self _ _)
      have hane : a ≠ PdfElement.pageBreak := by
        intro hc; rw [hc] at ha; exact absurd ha (by simp [isImage_pageBreak])
      rw [List.intersperse_cons_cons, List.countP_cons, List.countP_cons,
        ih (fun x hx => hall x (List.mem_cons_of_mem a hx))]
      simp [hane, List.length_cons]


/-- C6: for every validated collection whose blobs all decode and convert, the
assembled document passed to the renderer is exactly one page element per image
in collection order with a page break between consecutive images and none after
the last (`intersperse`), so it holds `n` image pages and `n - 1` page breaks;
assembly succeeds and returns the renderer's byte stream unchanged. -/
theorem create_file_page_structure
    (render : String → List PdfElement → Except String (List Nat))
    (lst : ImageDataList) (font : PdfFont) (pdf_bytes : List Nat)
    (hall : ∀ b ∈ lst.images, isOkB b.pixels = true ∧ isOkB b.toElement = true)
    (hrender : render lst.data_name
        (List.intersperse PdfElement.pageBreak (lst.images.map Blob.pageOf)) =
      .ok pdf_bytes) :
    PdfFile.create_file render lst font =
      .ok ⟨lst.data_name, lst, font, pdf_bytes⟩ ∧
    List.countP (fun e => e.isImage)
        (List.intersperse PdfElement.pageBreak (lst.images.map Blob.pageOf)) =
      lst.len ∧
    List.countP (fun e => decide (e = PdfElement.pageBreak))
        (List.intersperse PdfElement.pageBreak (lst.images.map Blob.pageOf)) =
      lst.len - 1 := by
  have hbe := buildElements_all_ok lst.images.length lst.images 0 (Nat.zero_add _) hall
  have hmap : ∀ x ∈ lst.images.map Blob.pageOf, x.isImage = true := by
    intro x hx
    obtain ⟨b, _, rfl⟩ := List.mem_map.mp hx
    exact pageOf_isImage b
  refine ⟨?_, ?_, ?_⟩
  · simp only [PdfFile.create_file, hbe, hrender]
  · rw [countP_intersperse_images _ hmap, List.length_map]; rfl
  · rw [countP_intersperse_breaks _ hmap, List.length_map]; rfl

/-- Witness for C6: three concrete images of distinct sizes produce a document
with exactly 3 pages and breaks only between pages 1-2 and 2-3, and the
non-empty byte stream returned by the renderer. -/
theorem create_file_page_structure_witness :
    PdfFile.create_file (fun _ _ => Except.ok [1])
        ⟨[⟨.ok (100, 50), .ok (100, 50), .ok ()⟩,
          ⟨.ok (80, 200), .ok (80, 200), .ok ()⟩,
          ⟨.ok (30, 30), .ok (30, 30), .ok ()⟩], "three", 200, 100⟩ ⟨"font"⟩ =
      .ok ⟨"three",
        ⟨[⟨.ok (100, 50), .ok (100, 50), .ok ()⟩,
          ⟨.ok (80, 200), .ok (80, 200), .ok ()⟩,
          ⟨.ok (30, 30), .ok (30, 30), .ok ()⟩], "three", 200, 100⟩, ⟨"font"⟩, [1]⟩ ∧
    List.countP (fun e => e.isImage)
        (List.intersperse PdfElement.pageBreak
          ([⟨.ok (100, 50), .ok (100, 50), .ok ()⟩,
            ⟨.ok (80, 200), .ok (80, 200), .ok ()⟩,
            ⟨.ok (30, 30), .ok (30, 30), .ok ()⟩].map Blob.pageOf)) = 3 ∧
    List.countP (fun e => decide (e = PdfElement.pageBreak))
        (List.intersperse PdfElement.pageBreak
          ([⟨.ok (100, 50), .ok (100, 50), .ok ()⟩,
            ⟨.ok (80, 200), .ok (80, 200), .ok ()⟩,
            ⟨.ok (30, 30), .ok (30, 30), .ok ()⟩].map Blob.pageOf)) = 2 :=
  create_file_page_structure (fun _ _ => Except.ok [1])
    ⟨[⟨.ok (100, 50), .ok (100, 50), .ok ()⟩,
      ⟨.ok (80, 200), .ok (80, 200), .ok ()⟩,
      ⟨.ok (30, 30), .ok (30, 30), .ok ()⟩], "three", 200, 100⟩ ⟨"font"⟩ [1]
    (by decide) rfl

theorem pageElement_error_creation (idx : Nat) (b : Blob) :
    ∀ e, pageElement idx b = .error e → ∃ msg, e = .PdfCreationError msg := by
  intro e h
  cases hd : b.pixels with
  | error s =>
    simp only [pageElement, hd] at h
    exact ⟨loadErrMsg idx s, by injection h with h'; rw [h']⟩
  | ok p =>
    obtain ⟨w, hgt⟩ := p
    cases hte : b.toElement with
    | error s =>
      simp only [pageElement, hd, hte] at h
      exact ⟨convErrMsg idx s, by injection h with h'; rw [h']⟩
    | ok u =>
      simp only [pageElement, hd, hte] at h
      exact Except.noConfusion h

theorem buildElements_error_creation (l : List Blob) :
    ∀ (n idx : Nat) (e : PdfValidationError),
      buildElements n l idx = .error e → ∃ msg, e = .PdfCreationError msg := by
  induction l with
  | nil => intro n idx e h; exact Except.noConfusion h
  | cons b rest ih =>
    intro n idx e h
    cases hpe : pageElement idx b with
    | error e' =>
      simp only [buildElements, hpe] at h
      injection h with h'
      rw [← h']
      exact pageElement_error_creation idx b e' hpe
    | ok el =>
      cases hbe : buildElements n rest (idx + 1) with
      | error e'' =>
        simp only [buildElements, hpe, hbe] at h
        injection h with h'
        rw [← h']
        exact ih n (idx + 1) e'' hbe
      | ok els =>
        simp only [buildElements, hpe, hbe] at h
        exact Except.noConfusion h

/-- C7 (amended): every failure of `PdfFile::create_file` — an image's
pixel-buffer decode, its conversion to a document element, or the final
render/serialize step — returns the single `PdfCreationError` kind (never
`PdfSaveError`), the failure modes being distinguished only by the message
string (conversion failures embed the 1-based image number); in every failure
case no `PdfFile`, hence no partial byte stream, is produced. -/
theorem create_file_errors_unified
    (render : String → List PdfElement → Except String (List Nat))
    (lst : ImageDataList) (font : PdfFont) (e : PdfValidationError)
    (h : PdfFile.create_file render lst font = .error e) :
    (∃ msg, e = .PdfCreationError msg) ∧
    ∀ f, PdfFile.create_file render lst font ≠ .ok f := by
  constructor
  · cases hbe : buildElements lst.images.length lst.images 0 with
    | error e' =>
      simp only [PdfFile.create_file, hbe] at h
      injection h with h'
      rw [← h']
      exact buildElements_error_creation lst.images lst.images.length 0 e' hbe
    | ok els =>
      cases hr : render lst.data_name els with
      | error s =>
        simp only [PdfFile.create_file, hbe, hr] at h
        injection h with h'
        exact ⟨s, by rw [← h']⟩
      | ok bs =>
        simp only [PdfFile.create_file, hbe, hr] at h
        exact Except.noConfusion h
  · intro f hc
    rw [h] at hc
    exact Except.noConfusion hc

/-- Witness for C7 (amended), at a concrete failing render step. -/
theorem create_file_errors_unified_witness :
    (∃ msg, (PdfValidationError.PdfCreationError "render failed") =
      .PdfCreationError msg) ∧
    ∀ f, PdfFile.create_file (fun _ _ => Except.error "render failed")
        ⟨[⟨.ok (1, 1), .ok (1, 1), .ok ()⟩], "doc", 1, 1⟩ ⟨"font"⟩ ≠ .ok f :=
  create_file_errors_unified (fun _ _ => Except.error "render failed")
    ⟨[⟨.ok (1, 1), .ok (1, 1), .ok ()⟩], "doc", 1, 1⟩ ⟨"font"⟩
    (.PdfCreationError "render failed") rfl

/-- Counterexample to C7 as stated: a failing final render step and a failing
image-to-element conversion both return the same error kind
`PdfCreationError` — the source has no separate `RenderFailed` and
`ImageToElementConversionFailed` variants, so the two failures are not
distinct error kinds. -/
theorem create_file_render_and_conversion_same_kind :
    PdfFile.create_file (fun _ _ => Except.error "render failed")
        ⟨[⟨.ok (1, 1), .ok (1, 1), .ok ()⟩], "doc", 1, 1⟩ ⟨"font"⟩ =
      .error (.PdfCreationError "render failed") ∧
    PdfFile.create_file (fun _ _ => Except.ok [1])
        ⟨[⟨.ok (1, 1), .ok (1, 1), .error "bad image"⟩], "doc", 1, 1⟩ ⟨"font"⟩ =
      .error (.PdfCreationError (convErrMsg 0 "bad image")) :=
  ⟨rfl, rfl⟩

theorem countProcessed_cons_error {α : Type} (process : α → Except AppError Unit)
    (bad : α) (rest : List α) (e : AppError) (h : process bad = .error e) :
    countProcessed process (bad :: rest) = countProcessed process rest := by
  show (match process bad with
    | Except.ok _ => countProcessed process rest + 1
    | Except.error _ => countProcessed process rest) = countProcessed process rest
  rw [h]

theorem countProcessed_ne_zero_iff {α : Type} (process : α → Except AppError Unit)
    (l : List α) :
    countProcessed process l ≠ 0 ↔ ∃ s ∈ l, process s = .ok () := by
  induction l with
  | nil => simp [countProcessed]
  | cons s rest ih =>
    cases hp : process s with
    | ok u =>
      obtain ⟨⟩ := u
      simp only [countProcessed, hp]
      constructor
      · intro _; exact ⟨s, List.mem_cons_self _ _, hp⟩
      · intro _; exact Nat.succ_ne_zero _
    | error e =>
      simp only [countProcessed, hp]
      rw [ih]
      constructor
      · rintro ⟨s', hs', hps'⟩
        exact ⟨s', List.mem_cons_of_mem _ hs', hps'⟩
      · rintro ⟨s', hs', hps'⟩
        rcases List.mem_cons.mp hs' with h1 | h2
        · rw [h1, hp] at hps'
          exact absurd hps' (by simp)
        · exact ⟨s', h2, hps'⟩

/-- C8: in a run over multiple sources, a failing source is simply skipped —
dropping it from the list does not change the run's outcome — the run succeeds
exactly when at least one source was processed successfully, and when every
source fails (in particular when none exists) it returns `NoItemsProcessed`. -/
theorem run_isolation_and_success {α : Type} (input_dir : String)
    (process : α → Except AppError Unit) :
    (∀ (bad : α) (sources : List α) (e : AppError), process bad = .error e →
      run input_dir (bad :: sources) process = run input_dir sources process) ∧
    (∀ sources : List α,
      run input_dir sources process = .ok () ↔ ∃ s ∈ sources, process s = .ok ()) ∧
    (∀ sources : List α, (∀ s ∈ sources, ∃ e, process s = .error e) →
      run input_dir sources process = .error (.NoItemsProcessed input_dir)) := by
  refine ⟨?_, ?_, ?_⟩
  · intro bad sources e h
    unfold run
    rw [countProcessed_cons_error process bad sources e h]
  · intro sources
    unfold run
    split
    case isTrue h0 =>
      constructor
      · intro hc; exact Except.noConfusion hc
      · intro hex
        exact absurd h0 ((countProcessed_ne_zero_iff process sources).mpr hex)
    case isFalse h0 =>
      constructor
      · intro _; exact (countProcessed_ne_zero_iff process sources).mp h0
      · intro _; rfl
  · intro sources hall
    unfold run
    have h0 : countProcessed process sources = 0 := by
      by_contra hne
      obtain ⟨s, hs, hps⟩ := (countProcessed_ne_zero_iff process sources).mp hne
      obtain ⟨e, he⟩ := hall s hs
      rw [hps] at he
      exact Except.noConfusion he
    rw [if_pos h0]

/-- Witness for C8: a concrete failing source is skipped without affecting the
rest, and an empty source list yields `NoItemsProcessed`. -/
theorem run_isolation_and_success_witness :
    run "indir" [(1 : Nat), 2]
        (fun n => if n = 1 then .error (.SourceError "broken zip") else .ok ()) =
      run "indir" [2]
        (fun n => if n = 1 then .error (.SourceError "broken zip") else .ok ()) ∧
    run "indir" ([] : List Nat) (fun _ => .ok ()) =
      .error (.NoItemsProcessed "indir") :=
  ⟨(run_isolation_and_success "indir"
      (fun n => if n = 1 then .error (.SourceError "broken zip") else .ok ())).1
      1 [2] (.SourceError "broken zip") rfl,
   (run_isolation_and_success "indir"
      (fun _ : Nat => Except.ok ())).2.2 [] (by simp)⟩

end ImagePdf
